import Mathlib

/-
  Shallow embedding of the Vaultix milestone escrow contract
  (src/apps/onchain/src/lib.rs) and verification of its specification.

  Modelling conventions:
  * Addresses and symbols are naturals; i128 values are Int with explicit
    range checks mirroring the Rust checked arithmetic.
  * The host environment is split into an authorization oracle
    (AuthEnv, for require_auth) and a token-transfer oracle (TransferEnv).
  * A public operation yields an Outcome: ok (new state, executed transfers),
    err (an ordinary contract Error), authAbort (require_auth trapped), or
    transferAbort (a token transfer trapped). The host rolls the whole call
    back on a trap, so only the ok constructor carries a state.
-/

namespace Vaultix

/-- Upper bound of a signed 128-bit integer (Rust i128 MAX). -/
def i128Max : Int := 170141183460469231731687303715884105727

/-- Lower bound of a signed 128-bit integer (Rust i128 MIN). -/
def i128Min : Int := -170141183460469231731687303715884105728

/-- Rust checked_add on i128, modelled on unbounded integers. -/
def checked_add (a b : Int) : Option Int :=
  if i128Min ≤ a + b ∧ a + b ≤ i128Max then some (a + b) else none

/-- Rust checked_sub on i128. -/
def checked_sub (a b : Int) : Option Int :=
  if i128Min ≤ a - b ∧ a - b ≤ i128Max then some (a - b) else none

/-- Rust checked_mul on i128. -/
def checked_mul (a b : Int) : Option Int :=
  if i128Min ≤ a * b ∧ a * b ≤ i128Max then some (a * b) else none

/-- Rust checked_div on i128: truncating division; none on division by zero
or on the single overflowing case MIN / -1. -/
def checked_div (a b : Int) : Option Int :=
  if b = 0 then none
  else if a = i128Min ∧ b = -1 then none
  else some (Int.tdiv a b)

/-- Milestone status (lib.rs, MilestoneStatus). -/
inductive MilestoneStatus where
  | Pending
  | Released
  | Disputed
  deriving DecidableEq

/-- A milestone (lib.rs, Milestone); the short Symbol description is a Nat. -/
structure Milestone where
  amount : Int
  status : MilestoneStatus
  description : Nat
  deriving DecidableEq

/-- Escrow status (lib.rs, EscrowStatus). -/
inductive EscrowStatus where
  | Active
  | Completed
  | Cancelled
  deriving DecidableEq

/-- An escrow record (lib.rs, Escrow). -/
structure Escrow where
  depositor : Nat
  recipient : Nat
  total_amount : Int
  total_released : Int
  milestones : List Milestone
  token : Nat
  status : EscrowStatus
  deriving DecidableEq

/-- Contract error kinds (lib.rs, Error). -/
inductive Error where
  | EscrowNotFound
  | EscrowAlreadyExists
  | MilestoneNotFound
  | MilestoneAlreadyReleased
  | UnauthorizedAccess
  | InvalidMilestoneAmount
  | TotalAmountMismatch
  | InsufficientBalance
  | EscrowNotActive
  | VectorTooLarge
  | TreasuryNotInitialized
  | InvalidFeeConfiguration
  | ZeroAmount
  | InvalidDeadline
  | SelfDealing
  deriving DecidableEq

/-- Default platform fee in basis points (lib.rs, DEFAULT_FEE_BPS). -/
def DEFAULT_FEE_BPS : Int := 50

/-- Basis-point denominator (lib.rs, BPS_DENOMINATOR). -/
def BPS_DENOMINATOR : Int := 10000

/-- Fee computation (lib.rs, calculate_fee): checked multiply then checked
divide by 10000, overflow surfacing as InvalidMilestoneAmount. -/
def calculate_fee (amount fee_bps : Int) : Except Error Int :=
  match checked_mul amount fee_bps with
  | none => .error .InvalidMilestoneAmount
  | some fee_numerator =>
    match checked_div fee_numerator BPS_DENOMINATOR with
    | none => .error .InvalidMilestoneAmount
    | some fee => .ok fee

/-- The accumulator loop inside validate_milestones (lib.rs): rejects
non-positive amounts and sums the amounts with checked addition. -/
def validateLoop : List Milestone → Int → Except Error Int
  | [], total => .ok total
  | m :: rest, total =>
    if m.amount ≤ 0 then .error .ZeroAmount
    else
      match checked_add total m.amount with
      | none => .error .InvalidMilestoneAmount
      | some t => validateLoop rest t

/-- Milestone vector validation (lib.rs, validate_milestones). -/
def validate_milestones (milestones : List Milestone) : Except Error Int :=
  if milestones.length > 20 then .error .VectorTooLarge
  else validateLoop milestones 0

/-- Checks that every milestone is Released (lib.rs, verify_all_released). -/
def verify_all_released : List Milestone → Bool
  | [] => true
  | m :: rest =>
    if m.status = MilestoneStatus.Released then verify_all_released rest else false

/-- The whole persisted contract state: the two instance keys of the
configuration store and the persistent escrow registry keyed by escrow id. -/
structure GlobalState where
  treasury : Option Nat
  fee_bps : Option Int
  escrows : List (Nat × Escrow)
  deriving DecidableEq

/-- One executed token transfer (token contract, source, destination, amount). -/
structure Transfer where
  token : Nat
  src : Nat
  dst : Nat
  amount : Int
  deriving DecidableEq

/-- Result of one public operation. Only ok carries a state: the host rolls
everything back on an error or a trap. -/
inductive Outcome where
  | ok (s : GlobalState) (transfers : List Transfer)
  | err (e : Error)
  | authAbort
  | transferAbort
  deriving DecidableEq

/-- Which identities the current caller context holds authorization proofs
for; require_auth traps when this is false. -/
abbrev AuthEnv := Nat → Bool

/-- Whether a given token transfer (token, source, destination, amount)
succeeds; a failing transfer traps the whole call. -/
abbrev TransferEnv := Nat → Nat → Nat → Int → Bool

/-- The contract's own holding identity (env.current_contract_address()). -/
def currentContract : Nat := 0

/-- Registry lookup, mirroring persistent-storage get on the escrow key. -/
def lookupEscrow : List (Nat × Escrow) → Nat → Option Escrow
  | [], _ => none
  | (k, e) :: rest, eid => if k = eid then some e else lookupEscrow rest eid

/-- Registry write, mirroring persistent-storage set on the escrow key. -/
def setEscrow : List (Nat × Escrow) → Nat → Escrow → List (Nat × Escrow)
  | [], eid, e => [(eid, e)]
  | (k, e0) :: rest, eid, e =>
    if k = eid then (eid, e) :: rest else (k, e0) :: setEscrow rest eid e

/-- Contract constructor (lib.rs, the fee-configuration setup operation):
authorizes the treasury, validates the fee range, stores both keys. -/
def initPlatform (auth : AuthEnv) (s : GlobalState) (treasury : Nat)
    (fee_bps : Option Int) : Outcome :=
  if auth treasury then
    if 0 ≤ fee_bps.getD DEFAULT_FEE_BPS ∧ fee_bps.getD DEFAULT_FEE_BPS ≤ BPS_DENOMINATOR then
      .ok { s with treasury := some treasury, fee_bps := some (fee_bps.getD DEFAULT_FEE_BPS) } []
    else .err .InvalidFeeConfiguration
  else .authAbort

/-- Fee update (lib.rs, update_fee): loads the stored treasury (failing
TreasuryNotInitialized), authorizes it, validates the range, stores the fee. -/
def update_fee (auth : AuthEnv) (s : GlobalState) (new_fee_bps : Int) : Outcome :=
  match s.treasury with
  | none => .err .TreasuryNotInitialized
  | some treasury =>
    if auth treasury then
      if 0 ≤ new_fee_bps ∧ new_fee_bps ≤ BPS_DENOMINATOR then
        .ok { s with fee_bps := some new_fee_bps } []
      else .err .InvalidFeeConfiguration
    else .authAbort

/-- Configuration read (lib.rs, get_config): requires the treasury key,
defaults the fee key to DEFAULT_FEE_BPS. -/
def get_config (s : GlobalState) : Except Error (Nat × Int) :=
  match s.treasury with
  | none => .error .TreasuryNotInitialized
  | some treasury => .ok (treasury, s.fee_bps.getD DEFAULT_FEE_BPS)

/-- Escrow creation (lib.rs, create_escrow). The source persists the record
and then invokes the funding transfer; a failed transfer traps and the host
rolls the call back, so the record is kept exactly when the transfer succeeds. -/
def create_escrow (auth : AuthEnv) (tr : TransferEnv) (s : GlobalState)
    (escrow_id : Nat) (depositor recipient : Nat) (milestones : List Milestone)
    (token : Nat) : Outcome :=
  if auth depositor then
    if depositor = recipient then .err .SelfDealing
    else if (lookupEscrow s.escrows escrow_id).isSome then .err .EscrowAlreadyExists
    else
      match validate_milestones milestones with
      | .error e => .err e
      | .ok total_amount =>
        let escrow : Escrow :=
          { depositor := depositor
            recipient := recipient
            total_amount := total_amount
            total_released := 0
            milestones := milestones.map fun m => { m with status := MilestoneStatus.Pending }
            token := token
            status := EscrowStatus.Active }
        if tr token depositor currentContract total_amount then
          .ok { s with escrows := setEscrow s.escrows escrow_id escrow }
            [⟨token, depositor, currentContract, total_amount⟩]
        else .transferAbort
  else .authAbort

/-- Escrow read (lib.rs, get_escrow). -/
def get_escrow (s : GlobalState) (escrow_id : Nat) : Except Error Escrow :=
  match lookupEscrow s.escrows escrow_id with
  | none => .error .EscrowNotFound
  | some e => .ok e

/-- Status read (lib.rs, get_state). -/
def get_state (s : GlobalState) (escrow_id : Nat) : Except Error EscrowStatus :=
  match get_escrow s escrow_id with
  | .error e => .error e
  | .ok escrow => .ok escrow.status

/-- Fee-charging payout path (lib.rs, release_milestone). Mirrors the source
order: load escrow, authorize the stored depositor, check active, check
index, check not yet released, load config, compute fee and payout, perform
the payout transfer and (only when the fee is positive) the treasury
transfer, then mark the milestone Released, add its full amount to
total_released with checked addition, and persist. -/
def release_milestone (auth : AuthEnv) (tr : TransferEnv) (s : GlobalState)
    (escrow_id : Nat) (milestone_index : Nat) (token_address : Nat) : Outcome :=
  match lookupEscrow s.escrows escrow_id with
  | none => .err .EscrowNotFound
  | some escrow =>
    if auth escrow.depositor then
      if escrow.status ≠ EscrowStatus.Active then .err .EscrowNotActive
      else if escrow.milestones.length ≤ milestone_index then .err .MilestoneNotFound
      else
        match escrow.milestones[milestone_index]? with
        | none => .err .MilestoneNotFound
        | some milestone =>
          if milestone.status = MilestoneStatus.Released then .err .MilestoneAlreadyReleased
          else
            match get_config s with
            | .error e => .err e
            | .ok (treasury, fee_bps) =>
              match calculate_fee milestone.amount fee_bps with
              | .error e => .err e
              | .ok fee =>
                match checked_sub milestone.amount fee with
                | none => .err .InvalidMilestoneAmount
                | some payout =>
                  if tr token_address currentContract escrow.recipient payout then
                    if 0 < fee ∧ ¬ tr token_address currentContract treasury fee then
                      .transferAbort
                    else
                      match checked_add escrow.total_released milestone.amount with
                      | none => .err .InvalidMilestoneAmount
                      | some new_total =>
                        let released := { milestone with status := MilestoneStatus.Released }
                        let escrow2 := { escrow with
                          milestones := escrow.milestones.set milestone_index released
                          total_released := new_total }
                        .ok { s with escrows := setEscrow s.escrows escrow_id escrow2 }
                          (⟨token_address, currentContract, escrow.recipient, payout⟩ ::
                            (if 0 < fee then
                              [⟨token_address, currentContract, treasury, fee⟩]
                            else []))
                  else .transferAbort
    else .authAbort

/-- Fee-free payout path (lib.rs, confirm_delivery). Mirrors the source
order: load escrow, authorize the supplied buyer, reject a buyer other than
the stored depositor, check active, check index, check not yet released,
mark Released, add the full amount with checked addition, transfer the full
amount to the recipient via the escrow's own stored token, persist. -/
def confirm_delivery (auth : AuthEnv) (tr : TransferEnv) (s : GlobalState)
    (escrow_id : Nat) (milestone_index : Nat) (buyer : Nat) : Outcome :=
  match lookupEscrow s.escrows escrow_id with
  | none => .err .EscrowNotFound
  | some escrow =>
    if auth buyer then
      if escrow.depositor ≠ buyer then .err .UnauthorizedAccess
      else if escrow.status ≠ EscrowStatus.Active then .err .EscrowNotActive
      else if escrow.milestones.length ≤ milestone_index then .err .MilestoneNotFound
      else
        match escrow.milestones[milestone_index]? with
        | none => .err .MilestoneNotFound
        | some milestone =>
          if milestone.status = MilestoneStatus.Released then .err .MilestoneAlreadyReleased
          else
            match checked_add escrow.total_released milestone.amount with
            | none => .err .InvalidMilestoneAmount
            | some new_total =>
              let released := { milestone with status := MilestoneStatus.Released }
              let escrow2 := { escrow with
                milestones := escrow.milestones.set milestone_index released
                total_released := new_total }
              if tr escrow.token currentContract escrow.recipient milestone.amount then
                .ok { s with escrows := setEscrow s.escrows escrow_id escrow2 }
                  [⟨escrow.token, currentContract, escrow.recipient, milestone.amount⟩]
              else .transferAbort
    else .authAbort

/-- Cancellation (lib.rs, cancel_escrow): load, authorize stored depositor,
reject when anything was released, set status Cancelled. -/
def cancel_escrow (auth : AuthEnv) (s : GlobalState) (escrow_id : Nat) : Outcome :=
  match lookupEscrow s.escrows escrow_id with
  | none => .err .EscrowNotFound
  | some escrow =>
    if auth escrow.depositor then
      if 0 < escrow.total_released then .err .MilestoneAlreadyReleased
      else
        let escrow2 := { escrow with status := EscrowStatus.Cancelled }
        .ok { s with escrows := setEscrow s.escrows escrow_id escrow2 } []
    else .authAbort

/-- Completion (lib.rs, complete_escrow): load, authorize stored depositor,
require every milestone Released, set status Completed. Note the source
never checks the current escrow status here. -/
def complete_escrow (auth : AuthEnv) (s : GlobalState) (escrow_id : Nat) : Outcome :=
  match lookupEscrow s.escrows escrow_id with
  | none => .err .EscrowNotFound
  | some escrow =>
    if auth escrow.depositor then
      if verify_all_released escrow.milestones then
        let escrow2 := { escrow with status := EscrowStatus.Completed }
        .ok { s with escrows := setEscrow s.escrows escrow_id escrow2 } []
      else .err .EscrowNotActive
    else .authAbort

/-- One public mutating operation together with its inputs. -/
inductive Action where
  | setup (treasury : Nat) (fee_bps : Option Int)
  | updateFee (new_fee_bps : Int)
  | create (escrow_id depositor recipient : Nat) (milestones : List Milestone) (token : Nat)
  | release (escrow_id milestone_index token_address : Nat)
  | confirm (escrow_id milestone_index buyer : Nat)
  | cancel (escrow_id : Nat)
  | complete (escrow_id : Nat)

/-- An invocation: the host environment of the call plus the action. -/
structure Call where
  auth : AuthEnv
  tr : TransferEnv
  act : Action

/-- Dispatch of one action against a state. -/
def runAction (auth : AuthEnv) (tr : TransferEnv) (s : GlobalState) : Action → Outcome
  | .setup t f => initPlatform auth s t f
  | .updateFee f => update_fee auth s f
  | .create eid d r ms tok => create_escrow auth tr s eid d r ms tok
  | .release eid i tok => release_milestone auth tr s eid i tok
  | .confirm eid i b => confirm_delivery auth tr s eid i b
  | .cancel eid => cancel_escrow auth s eid
  | .complete eid => complete_escrow auth s eid

/-- The state after one call: unchanged unless the call succeeded. -/
def nextState (s : GlobalState) (c : Call) : GlobalState :=
  match runAction c.auth c.tr s c.act with
  | .ok s2 _ => s2
  | _ => s

/-- The state after a sequence of calls. -/
def runTrace (s : GlobalState) (calls : List Call) : GlobalState :=
  calls.foldl nextState s

/-- The state of a freshly deployed contract: nothing stored. -/
def initialState : GlobalState := ⟨none, none, []⟩

/-- Sum of the amounts of a milestone list. -/
def mSum : List Milestone → Int
  | [] => 0
  | m :: rest => m.amount + mSum rest

/-- Sum of the amounts of the milestones whose status is Released. -/
def releasedSum : List Milestone → Int
  | [] => 0
  | m :: rest =>
    (if m.status = MilestoneStatus.Released then m.amount else 0) + releasedSum rest

/-- Record well-formedness: the accounting invariants of one escrow record,
together with the auxiliary facts needed to carry them through a trace. -/
def escrowWF (e : Escrow) : Prop :=
  e.total_amount = mSum e.milestones ∧
  (∀ m ∈ e.milestones, 0 < m.amount) ∧
  e.total_released = releasedSum e.milestones ∧
  (∀ m ∈ e.milestones, m.status ≠ MilestoneStatus.Disputed) ∧
  (e.status = EscrowStatus.Cancelled → e.total_released = 0) ∧
  (e.status = EscrowStatus.Completed → ∀ m ∈ e.milestones, m.status = MilestoneStatus.Released)

/-- State well-formedness: every stored escrow record is well-formed. -/
def stateWF (s : GlobalState) : Prop :=
  ∀ eid e, lookupEscrow s.escrows eid = some e → escrowWF e

theorem checked_add_eq_some {a b c : Int} (h : checked_add a b = some c) :
    c = a + b ∧ i128Min ≤ a + b ∧ a + b ≤ i128Max := by
  unfold checked_add at h
  split at h
  · exact ⟨(Option.some.injEq _ _).mp h.symm ▸ rfl, by assumption⟩
  · simp at h

theorem checked_add_of_range {a b : Int} (h1 : i128Min ≤ a + b) (h2 : a + b ≤ i128Max) :
    checked_add a b = some (a + b) := by
  unfold checked_add
  rw [if_pos ⟨h1, h2⟩]

theorem checked_sub_eq_some {a b c : Int} (h : checked_sub a b = some c) :
    c = a - b ∧ i128Min ≤ a - b ∧ a - b ≤ i128Max := by
  unfold checked_sub at h
  split at h
  · exact ⟨(Option.some.injEq _ _).mp h.symm ▸ rfl, by assumption⟩
  · simp at h

theorem checked_sub_of_range {a b : Int} (h1 : i128Min ≤ a - b) (h2 : a - b ≤ i128Max) :
    checked_sub a b = some (a - b) := by
  unfold checked_sub
  rw [if_pos ⟨h1, h2⟩]

theorem checked_mul_eq_some {a b c : Int} (h : checked_mul a b = some c) :
    c = a * b ∧ i128Min ≤ a * b ∧ a * b ≤ i128Max := by
  unfold checked_mul at h
  split at h
  · exact ⟨(Option.some.injEq _ _).mp h.symm ▸ rfl, by assumption⟩
  · simp at h

theorem i128Min_neg : i128Min < 0 := by decide

theorem i128Max_pos : 0 < i128Max := by decide

theorem mSum_nonneg {ms : List Milestone} (h : ∀ m ∈ ms, 0 ≤ m.amount) :
    0 ≤ mSum ms := by
  induction ms with
  | nil => simp [mSum]
  | cons m rest ih =>
    have hm := h m (by simp)
    have hr := ih fun x hx => h x (List.mem_cons_of_mem _ hx)
    simp only [mSum]
    omega

theorem releasedSum_nonneg {ms : List Milestone} (h : ∀ m ∈ ms, 0 ≤ m.amount) :
    0 ≤ releasedSum ms := by
  induction ms with
  | nil => simp [releasedSum]
  | cons m rest ih =>
    have hm := h m (by simp)
    have hr := ih fun x hx => h x (List.mem_cons_of_mem _ hx)
    simp only [releasedSum]
    have hite : (0:Int) ≤ if m.status = MilestoneStatus.Released then m.amount else 0 := by
      split
      · exact hm
      · exact le_refl 0
    omega

theorem releasedSum_le_mSum {ms : List Milestone} (h : ∀ m ∈ ms, 0 ≤ m.amount) :
    releasedSum ms ≤ mSum ms := by
  induction ms with
  | nil => simp [releasedSum, mSum]
  | cons m rest ih =>
    have hm := h m (by simp)
    have hr := ih fun x hx => h x (List.mem_cons_of_mem _ hx)
    simp only [releasedSum, mSum]
    have hite : (if m.status = MilestoneStatus.Released then m.amount else 0) ≤ m.amount := by
      split
      · exact le_refl _
      · exact hm
    omega

theorem releasedSum_of_all_released {ms : List Milestone}
    (h : ∀ m ∈ ms, m.status = MilestoneStatus.Released) :
    releasedSum ms = mSum ms := by
  induction ms with
  | nil => simp [releasedSum, mSum]
  | cons m rest ih =>
    have hm := h m (by simp)
    have hr := ih fun x hx => h x (List.mem_cons_of_mem _ hx)
    simp [releasedSum, mSum, hm, hr]

theorem releasedSum_of_none_released {ms : List Milestone}
    (h : ∀ m ∈ ms, m.status ≠ MilestoneStatus.Released) :
    releasedSum ms = 0 := by
  induction ms with
  | nil => simp [releasedSum]
  | cons m rest ih =>
    have hm := h m (by simp)
    have hr := ih fun x hx => h x (List.mem_cons_of_mem _ hx)
    simp [releasedSum, hm, hr]

theorem mSum_set {ms : List Milestone} {i : Nat} {m m2 : Milestone}
    (hm : ms[i]? = some m) (ham : m2.amount = m.amount) :
    mSum (ms.set i m2) = mSum ms := by
  induction ms generalizing i with
  | nil => simp at hm
  | cons a rest ih =>
    cases i with
    | zero =>
      simp only [List.getElem?_cons_zero, Option.some.injEq] at hm
      subst hm
      simp [List.set, mSum, ham]
    | succ n =>
      simp only [List.getElem?_cons_succ] at hm
      simp [List.set, mSum, ih hm]

theorem releasedSum_set_release {ms : List Milestone} {i : Nat} {m : Milestone}
    (hm : ms[i]? = some m) (hnot : m.status ≠ MilestoneStatus.Released) :
    releasedSum (ms.set i { m with status := MilestoneStatus.Released }) =
      releasedSum ms + m.amount := by
  induction ms generalizing i with
  | nil => simp at hm
  | cons a rest ih =>
    cases i with
    | zero =>
      simp only [List.getElem?_cons_zero, Option.some.injEq] at hm
      subst hm
      simp [List.set, releasedSum, hnot]
      omega
    | succ n =>
      simp only [List.getElem?_cons_succ] at hm
      simp only [List.set, releasedSum, ih hm]
      omega

theorem mem_of_mem_set {ms : List Milestone} {i : Nat} {m2 x : Milestone}
    (h : x ∈ ms.set i m2) : x ∈ ms ∨ x = m2 := by
  induction ms generalizing i with
  | nil => simp [List.set] at h
  | cons a rest ih =>
    cases i with
    | zero =>
      simp only [List.set, List.mem_cons] at h
      rcases h with h | h
      · exact Or.inr h
      · exact Or.inl (List.mem_cons_of_mem _ h)
    | succ n =>
      simp only [List.set, List.mem_cons] at h
      rcases h with h | h
      · exact Or.inl (h ▸ List.mem_cons_self _ _)
      · rcases ih h with h2 | h2
        · exact Or.inl (List.mem_cons_of_mem _ h2)
        · exact Or.inr h2

theorem lookup_setEscrow_self (reg : List (Nat × Escrow)) (eid : Nat) (e : Escrow) :
    lookupEscrow (setEscrow reg eid e) eid = some e := by
  induction reg with
  | nil => simp [setEscrow, lookupEscrow]
  | cons p rest ih =>
    obtain ⟨k, e0⟩ := p
    by_cases h : k = eid
    · simp [setEscrow, lookupEscrow, h]
    · simp [setEscrow, lookupEscrow, h, ih]

theorem lookup_setEscrow_ne (reg : List (Nat × Escrow)) {eid eid2 : Nat} (e : Escrow)
    (h : eid2 ≠ eid) :
    lookupEscrow (setEscrow reg eid e) eid2 = lookupEscrow reg eid2 := by
  induction reg with
  | nil => simp [setEscrow, lookupEscrow, Ne.symm h]
  | cons p rest ih =>
    obtain ⟨k, e0⟩ := p
    by_cases hk : k = eid
    · subst hk
      simp [setEscrow, lookupEscrow, Ne.symm h]
    · simp [setEscrow, lookupEscrow, hk, ih]

theorem verify_all_released_iff (ms : List Milestone) :
    verify_all_released ms = true ↔ ∀ m ∈ ms, m.status = MilestoneStatus.Released := by
  induction ms with
  | nil => simp [verify_all_released]
  | cons m rest ih =>
    by_cases h : m.status = MilestoneStatus.Released
    · simp [verify_all_released, h, ih]
    · simp [verify_all_released, h]

theorem validateLoop_ok {ms : List Milestone} {total t : Int}
    (h : validateLoop ms total = .ok t) :
    t = total + mSum ms ∧ ∀ m ∈ ms, 0 < m.amount := by
  induction ms generalizing total with
  | nil =>
    simp only [validateLoop, Except.ok.injEq] at h
    simp [mSum, h]
  | cons m rest ih =>
    simp only [validateLoop] at h
    split at h
    · simp at h
    · next hpos =>
      rcases hadd : checked_add total m.amount with _ | t2
      · rw [hadd] at h; simp at h
      · rw [hadd] at h
        obtain ⟨heq, _, _⟩ := checked_add_eq_some hadd
        obtain ⟨h1, h2⟩ := ih h
        subst heq
        refine ⟨by simp only [mSum]; omega, ?_⟩
        intro x hx
        rcases List.mem_cons.mp hx with hx | hx
        · subst hx; omega
        · exact h2 x hx

theorem validateLoop_of_bounds {ms : List Milestone} (total : Int)
    (hpos : ∀ m ∈ ms, 0 < m.amount) (h0 : 0 ≤ total)
    (hub : total + mSum ms ≤ i128Max) :
    validateLoop ms total = .ok (total + mSum ms) := by
  induction ms generalizing total with
  | nil => simp [validateLoop, mSum]
  | cons m rest ih =>
    have hm := hpos m (by simp)
    have hrest : ∀ x ∈ rest, 0 < x.amount := fun x hx => hpos x (List.mem_cons_of_mem _ hx)
    have hrest0 : 0 ≤ mSum rest := mSum_nonneg fun x hx => le_of_lt (hrest x hx)
    have hsum : mSum (m :: rest) = m.amount + mSum rest := rfl
    have hubc : total + m.amount ≤ i128Max := by omega
    have hlbc : i128Min ≤ total + m.amount := by
      have := i128Min_neg
      omega
    simp only [validateLoop, if_neg (by omega : ¬ m.amount ≤ 0),
      checked_add_of_range hlbc hubc]
    have := ih (total + m.amount) hrest (by omega) (by omega)
    rw [this]
    congr 1
    omega

theorem validate_milestones_ok {ms : List Milestone} {t : Int}
    (h : validate_milestones ms = .ok t) :
    t = mSum ms ∧ (∀ m ∈ ms, 0 < m.amount) ∧ ms.length ≤ 20 := by
  unfold validate_milestones at h
  split at h
  · simp at h
  · next hlen =>
    obtain ⟨h1, h2⟩ := validateLoop_ok h
    exact ⟨by omega, h2, by omega⟩

theorem validate_milestones_of_bounds {ms : List Milestone}
    (hpos : ∀ m ∈ ms, 0 < m.amount) (hlen : ms.length ≤ 20)
    (hub : mSum ms ≤ i128Max) :
    validate_milestones ms = .ok (mSum ms) := by
  unfold validate_milestones
  rw [if_neg (by omega)]
  have := validateLoop_of_bounds 0 hpos (le_refl 0) (by omega)
  simpa using this

/-- An escrow record with its status replaced. -/
def withStatus (e : Escrow) (st : EscrowStatus) : Escrow := { e with status := st }

/-- A milestone marked Released. -/
def markReleased (m : Milestone) : Milestone := { m with status := MilestoneStatus.Released }

/-- The escrow record as updated by a successful payout of milestone i. -/
def payoutUpdate (e : Escrow) (i : Nat) (m : Milestone) (new_total : Int) : Escrow :=
  { e with milestones := e.milestones.set i (markReleased m), total_released := new_total }

/-- The escrow record that a successful create_escrow persists. -/
def freshEscrow (d r : Nat) (ms : List Milestone) (tok : Nat) (total : Int) : Escrow :=
  { depositor := d
    recipient := r
    total_amount := total
    total_released := 0
    milestones := ms.map fun m => { m with status := MilestoneStatus.Pending }
    token := tok
    status := EscrowStatus.Active }

theorem create_ok_inv {auth : AuthEnv} {tr : TransferEnv} {s : GlobalState}
    {eid d r tok : Nat} {ms : List Milestone} {s2 : GlobalState} {txs : List Transfer}
    (h : create_escrow auth tr s eid d r ms tok = .ok s2 txs) :
    auth d = true ∧ d ≠ r ∧ lookupEscrow s.escrows eid = none ∧
    ∃ total, validate_milestones ms = .ok total ∧
      tr tok d currentContract total = true ∧
      s2 = { s with escrows := setEscrow s.escrows eid (freshEscrow d r ms tok total) } ∧
      txs = [⟨tok, d, currentContract, total⟩] := by
  unfold create_escrow at h
  split at h
  case isFalse => simp at h
  case isTrue hauth =>
    split at h
    case isTrue => simp at h
    case isFalse hdr =>
      split at h
      case isTrue => simp at h
      case isFalse hex =>
        split at h
        · simp at h
        next total heq =>
          split at h
          case isTrue htr =>
            simp only [Outcome.ok.injEq] at h
            obtain ⟨hs, ht⟩ := h
            refine ⟨hauth, hdr, Option.not_isSome_iff_eq_none.mp hex, total, heq, htr, ?_, ht.symm⟩
            rw [← hs]
            rfl
          case isFalse htr => simp at h

theorem create_ok_of {auth : AuthEnv} {tr : TransferEnv} {s : GlobalState}
    {eid d r tok : Nat} {ms : List Milestone} {total : Int}
    (hauth : auth d = true) (hdr : d ≠ r)
    (hex : lookupEscrow s.escrows eid = none)
    (hval : validate_milestones ms = .ok total)
    (htr : tr tok d currentContract total = true) :
    create_escrow auth tr s eid d r ms tok =
      .ok { s with escrows := setEscrow s.escrows eid (freshEscrow d r ms tok total) }
        [⟨tok, d, currentContract, total⟩] := by
  unfold create_escrow
  simp [hauth, hdr, hex, hval, htr, freshEscrow]

theorem cancel_ok_inv {auth : AuthEnv} {s : GlobalState} {eid : Nat}
    {s2 : GlobalState} {txs : List Transfer}
    (h : cancel_escrow auth s eid = .ok s2 txs) :
    ∃ escrow, lookupEscrow s.escrows eid = some escrow ∧
      auth escrow.depositor = true ∧ escrow.total_released ≤ 0 ∧
      s2 = { s with escrows := setEscrow s.escrows eid (withStatus escrow EscrowStatus.Cancelled) } ∧
      txs = [] := by
  unfold cancel_escrow at h
  split at h
  · simp at h
  next escrow hlook =>
    split at h
    case isFalse => simp at h
    case isTrue hauth =>
      split at h
      case isTrue => simp at h
      case isFalse hrel =>
        simp only [Outcome.ok.injEq] at h
        obtain ⟨hs, ht⟩ := h
        exact ⟨escrow, hlook, hauth, by omega, by rw [← hs]; rfl, ht.symm⟩

theorem cancel_ok_of {auth : AuthEnv} {s : GlobalState} {eid : Nat} {escrow : Escrow}
    (hlook : lookupEscrow s.escrows eid = some escrow)
    (hauth : auth escrow.depositor = true)
    (hrel : escrow.total_released ≤ 0) :
    cancel_escrow auth s eid =
      .ok { s with escrows := setEscrow s.escrows eid (withStatus escrow EscrowStatus.Cancelled) }
        [] := by
  unfold cancel_escrow
  rw [hlook]
  simp only [hauth, if_true, if_neg (by omega : ¬ 0 < escrow.total_released)]
  rfl

theorem complete_ok_inv {auth : AuthEnv} {s : GlobalState} {eid : Nat}
    {s2 : GlobalState} {txs : List Transfer}
    (h : complete_escrow auth s eid = .ok s2 txs) :
    ∃ escrow, lookupEscrow s.escrows eid = some escrow ∧
      auth escrow.depositor = true ∧
      verify_all_released escrow.milestones = true ∧
      s2 = { s with escrows := setEscrow s.escrows eid (withStatus escrow EscrowStatus.Completed) } ∧
      txs = [] := by
  unfold complete_escrow at h
  split at h
  · simp at h
  next escrow hlook =>
    split at h
    case isFalse => simp at h
    case isTrue hauth =>
      split at h
      case isFalse => simp at h
      case isTrue hall =>
        simp only [Outcome.ok.injEq] at h
        obtain ⟨hs, ht⟩ := h
        exact ⟨escrow, hlook, hauth, hall, by rw [← hs]; rfl, ht.symm⟩

theorem complete_ok_of {auth : AuthEnv} {s : GlobalState} {eid : Nat} {escrow : Escrow}
    (hlook : lookupEscrow s.escrows eid = some escrow)
    (hauth : auth escrow.depositor = true)
    (hall : verify_all_released escrow.milestones = true) :
    complete_escrow auth s eid =
      .ok { s with escrows := setEscrow s.escrows eid (withStatus escrow EscrowStatus.Completed) }
        [] := by
  unfold complete_escrow
  rw [hlook]
  simp only [hauth, if_true, hall]
  rfl

theorem release_ok_inv {auth : AuthEnv} {tr : TransferEnv} {s : GlobalState}
    {eid idx tok : Nat} {s2 : GlobalState} {txs : List Transfer}
    (h : release_milestone auth tr s eid idx tok = .ok s2 txs) :
    ∃ escrow milestone treasury fee_bps fee payout new_total,
      lookupEscrow s.escrows eid = some escrow ∧
      auth escrow.depositor = true ∧
      escrow.status = EscrowStatus.Active ∧
      idx < escrow.milestones.length ∧
      escrow.milestones[idx]? = some milestone ∧
      milestone.status ≠ MilestoneStatus.Released ∧
      get_config s = .ok (treasury, fee_bps) ∧
      calculate_fee milestone.amount fee_bps = .ok fee ∧
      checked_sub milestone.amount fee = some payout ∧
      checked_add escrow.total_released milestone.amount = some new_total ∧
      s2 = { s with escrows := setEscrow s.escrows eid (payoutUpdate escrow idx milestone new_total) } ∧
      txs = ⟨tok, currentContract, escrow.recipient, payout⟩ ::
        (if 0 < fee then [⟨tok, currentContract, treasury, fee⟩] else []) := by
  unfold release_milestone at h
  split at h
  · simp at h
  next escrow hlook =>
    split at h
    case isFalse => simp at h
    case isTrue hauth =>
      split at h
      case isTrue => simp at h
      case isFalse hstat =>
        split at h
        case isTrue => simp at h
        case isFalse hlen =>
          split at h
          · simp at h
          next milestone harr =>
            split at h
            case isTrue => simp at h
            case isFalse hrel =>
              split at h
              · simp at h
              next treasury fee_bps hcfg =>
                split at h
                · simp at h
                next fee hfee =>
                  split at h
                  · simp at h
                  next payout hsub =>
                    split at h
                    case isFalse => simp at h
                    case isTrue htr1 =>
                      split at h
                      case isTrue => simp at h
                      case isFalse hguard =>
                        split at h
                        · simp at h
                        next new_total hadd =>
                          simp only [Outcome.ok.injEq] at h
                          obtain ⟨hs, ht⟩ := h
                          refine ⟨escrow, milestone, treasury, fee_bps, fee, payout, new_total,
                            hlook, hauth, not_not.mp hstat, by omega, harr, hrel, hcfg, hfee,
                            hsub, hadd, ?_, ht.symm⟩
                          rw [← hs]
                          rfl

theorem release_ok_of {auth : AuthEnv} {tr : TransferEnv} {s : GlobalState}
    {eid idx tok : Nat} {escrow : Escrow} {milestone : Milestone}
    {treasury : Nat} {fee_bps fee payout new_total : Int}
    (hlook : lookupEscrow s.escrows eid = some escrow)
    (hauth : auth escrow.depositor = true)
    (hstat : escrow.status = EscrowStatus.Active)
    (hlen : idx < escrow.milestones.length)
    (harr : escrow.milestones[idx]? = some milestone)
    (hrel : milestone.status ≠ MilestoneStatus.Released)
    (hcfg : get_config s = .ok (treasury, fee_bps))
    (hfee : calculate_fee milestone.amount fee_bps = .ok fee)
    (hsub : checked_sub milestone.amount fee = some payout)
    (hadd : checked_add escrow.total_released milestone.amount = some new_total)
    (htr1 : tr tok currentContract escrow.recipient payout = true)
    (htr2 : 0 < fee → tr tok currentContract treasury fee = true) :
    release_milestone auth tr s eid idx tok =
      .ok { s with escrows := setEscrow s.escrows eid (payoutUpdate escrow idx milestone new_total) }
        (⟨tok, currentContract, escrow.recipient, payout⟩ ::
          (if 0 < fee then [⟨tok, currentContract, treasury, fee⟩] else [])) := by
  have hlen2 : ¬ (escrow.milestones.length ≤ idx) := by omega
  have hguard : ¬ (0 < fee ∧ ¬ tr tok currentContract treasury fee = true) := by
    by_cases hf : 0 < fee
    · simp [hf, htr2 hf]
    · simp [hf]
  unfold release_milestone
  simp [hlook, hauth, hstat, hlen2, harr, hrel, hcfg, hfee, hsub, hadd, htr1, hguard,
    payoutUpdate, markReleased]
  exact htr2

theorem confirm_ok_inv {auth : AuthEnv} {tr : TransferEnv} {s : GlobalState}
    {eid idx buyer : Nat} {s2 : GlobalState} {txs : List Transfer}
    (h : confirm_delivery auth tr s eid idx buyer = .ok s2 txs) :
    ∃ escrow milestone new_total,
      lookupEscrow s.escrows eid = some escrow ∧
      auth buyer = true ∧
      escrow.depositor = buyer ∧
      escrow.status = EscrowStatus.Active ∧
      idx < escrow.milestones.length ∧
      escrow.milestones[idx]? = some milestone ∧
      milestone.status ≠ MilestoneStatus.Released ∧
      checked_add escrow.total_released milestone.amount = some new_total ∧
      tr escrow.token currentContract escrow.recipient milestone.amount = true ∧
      s2 = { s with escrows := setEscrow s.escrows eid (payoutUpdate escrow idx milestone new_total) } ∧
      txs = [⟨escrow.token, currentContract, escrow.recipient, milestone.amount⟩] := by
  unfold confirm_delivery at h
  split at h
  · simp at h
  next escrow hlook =>
    split at h
    case isFalse => simp at h
    case isTrue hauth =>
      split at h
      case isTrue => simp at h
      case isFalse hbuyer =>
        split at h
        case isTrue => simp at h
        case isFalse hstat =>
          split at h
          case isTrue => simp at h
          case isFalse hlen =>
            split at h
            · simp at h
            next milestone harr =>
              split at h
              case isTrue => simp at h
              case isFalse hrel =>
                split at h
                · simp at h
                next new_total hadd =>
                  split at h
                  case isFalse => simp at h
                  case isTrue htr =>
                    simp only [Outcome.ok.injEq] at h
                    obtain ⟨hs, ht⟩ := h
                    refine ⟨escrow, milestone, new_total, hlook, hauth, not_not.mp hbuyer,
                      not_not.mp hstat, by omega, harr, hrel, hadd, htr, ?_, ht.symm⟩
                    rw [← hs]
                    rfl

theorem confirm_ok_of {auth : AuthEnv} {tr : TransferEnv} {s : GlobalState}
    {eid idx buyer : Nat} {escrow : Escrow} {milestone : Milestone} {new_total : Int}
    (hlook : lookupEscrow s.escrows eid = some escrow)
    (hauth : auth buyer = true)
    (hbuyer : escrow.depositor = buyer)
    (hstat : escrow.status = EscrowStatus.Active)
    (hlen : idx < escrow.milestones.length)
    (harr : escrow.milestones[idx]? = some milestone)
    (hrel : milestone.status ≠ MilestoneStatus.Released)
    (hadd : checked_add escrow.total_released milestone.amount = some new_total)
    (htr : tr escrow.token currentContract escrow.recipient milestone.amount = true) :
    confirm_delivery auth tr s eid idx buyer =
      .ok { s with escrows := setEscrow s.escrows eid (payoutUpdate escrow idx milestone new_total) }
        [⟨escrow.token, currentContract, escrow.recipient, milestone.amount⟩] := by
  have hlen2 : ¬ (escrow.milestones.length ≤ idx) := by omega
  unfold confirm_delivery
  simp [hlook, hauth, hbuyer, hstat, hlen2, harr, hrel, hadd, htr, payoutUpdate, markReleased]

theorem mem_of_lookup_idx {ms : List Milestone} {i : Nat} {m : Milestone}
    (h : ms[i]? = some m) : m ∈ ms := by
  induction ms generalizing i with
  | nil => simp at h
  | cons a rest ih =>
    cases i with
    | zero =>
      simp only [List.getElem?_cons_zero, Option.some.injEq] at h
      subst h
      exact List.mem_cons_self _ _
    | succ n =>
      simp only [List.getElem?_cons_succ] at h
      exact List.mem_cons_of_mem _ (ih h)

theorem escrowWF_payoutUpdate {escrow : Escrow} {milestone : Milestone}
    {idx : Nat} {new_total : Int}
    (hwf : escrowWF escrow)
    (harr : escrow.milestones[idx]? = some milestone)
    (hrel : milestone.status ≠ MilestoneStatus.Released)
    (hstat : escrow.status = EscrowStatus.Active)
    (hnt : new_total = escrow.total_released + milestone.amount) :
    escrowWF (payoutUpdate escrow idx milestone new_total) := by
  obtain ⟨h1, h2, h3, h4, h5, h6⟩ := hwf
  have hmem := mem_of_lookup_idx harr
  refine ⟨?_, ?_, ?_, ?_, ?_, ?_⟩
  · show escrow.total_amount = mSum (escrow.milestones.set idx (markReleased milestone))
    rw [mSum_set harr (show (markReleased milestone).amount = milestone.amount from rfl)]
    exact h1
  · intro m hm
    rcases mem_of_mem_set hm with hx | hx
    · exact h2 m hx
    · rw [hx]
      exact h2 milestone hmem
  · show new_total =
      releasedSum (escrow.milestones.set idx { milestone with status := MilestoneStatus.Released })
    rw [releasedSum_set_release harr hrel, ← h3, hnt]
  · intro m hm
    rcases mem_of_mem_set hm with hx | hx
    · exact h4 m hx
    · rw [hx]
      simp [markReleased]
  · intro hc
    rw [show (payoutUpdate escrow idx milestone new_total).status = escrow.status from rfl,
      hstat] at hc
    simp at hc
  · intro hc
    rw [show (payoutUpdate escrow idx milestone new_total).status = escrow.status from rfl,
      hstat] at hc
    simp at hc

theorem stateWF_set {s : GlobalState} {eid : Nat} {e2 : Escrow}
    (hwf : stateWF s) (he : escrowWF e2) :
    stateWF { s with escrows := setEscrow s.escrows eid e2 } := by
  intro eid2 e hlk
  by_cases heq : eid2 = eid
  · subst heq
    rw [show ({ s with escrows := setEscrow s.escrows eid2 e2 } : GlobalState).escrows =
      setEscrow s.escrows eid2 e2 from rfl, lookup_setEscrow_self] at hlk
    cases hlk
    exact he
  · rw [show ({ s with escrows := setEscrow s.escrows eid e2 } : GlobalState).escrows =
      setEscrow s.escrows eid e2 from rfl, lookup_setEscrow_ne _ _ heq] at hlk
    exact hwf eid2 e hlk

theorem mSum_map_pending (ms : List Milestone) :
    mSum (ms.map fun m => { m with status := MilestoneStatus.Pending }) = mSum ms := by
  induction ms with
  | nil => rfl
  | cons a rest ih => simp only [List.map, mSum, ih]

theorem escrowWF_fresh {d r tok : Nat} {ms : List Milestone} {total : Int}
    (hval : validate_milestones ms = .ok total) :
    escrowWF (freshEscrow d r ms tok total) := by
  obtain ⟨htot, hpos, hlen⟩ := validate_milestones_ok hval
  have hpend : ∀ m ∈ ms.map (fun m => { m with status := MilestoneStatus.Pending }),
      m.status = MilestoneStatus.Pending := by
    intro m hm
    obtain ⟨a, _, ha⟩ := List.mem_map.mp hm
    rw [← ha]
  have hamt : ∀ m ∈ ms.map (fun m => { m with status := MilestoneStatus.Pending }),
      0 < m.amount := by
    intro m hm
    obtain ⟨a, hain, ha⟩ := List.mem_map.mp hm
    rw [← ha]
    exact hpos a hain
  refine ⟨?_, hamt, ?_, ?_, ?_, ?_⟩
  · show total = mSum (ms.map fun m => { m with status := MilestoneStatus.Pending })
    rw [mSum_map_pending, htot]
  · show (0:Int) = releasedSum (ms.map fun m => { m with status := MilestoneStatus.Pending })
    rw [releasedSum_of_none_released]
    intro m hm
    rw [hpend m hm]
    simp
  · intro m hm
    rw [hpend m hm]
    simp
  · intro hc
    simp [freshEscrow] at hc
  · intro hc
    simp [freshEscrow] at hc

theorem wf_runAction {auth : AuthEnv} {tr : TransferEnv} {s s2 : GlobalState}
    {a : Action} {txs : List Transfer}
    (h : runAction auth tr s a = .ok s2 txs) (hwf : stateWF s) : stateWF s2 := by
  cases a with
  | setup t f =>
    simp only [runAction] at h
    unfold initPlatform at h
    split at h
    case isFalse => simp at h
    case isTrue =>
      split at h
      case isFalse => simp at h
      case isTrue =>
        simp only [Outcome.ok.injEq] at h
        obtain ⟨hs, _⟩ := h
        rw [← hs]
        intro eid e hlk
        exact hwf eid e hlk
  | updateFee f =>
    simp only [runAction] at h
    unfold update_fee at h
    split at h
    · simp at h
    next treasury heq =>
      split at h
      case isFalse => simp at h
      case isTrue =>
        split at h
        case isFalse => simp at h
        case isTrue =>
          simp only [Outcome.ok.injEq] at h
          obtain ⟨hs, _⟩ := h
          rw [← hs]
          intro eid e hlk
          exact hwf eid e hlk
  | create eid d r ms tok =>
    simp only [runAction] at h
    obtain ⟨_, _, _, total, hval, _, hs, _⟩ := create_ok_inv h
    rw [hs]
    exact stateWF_set hwf (escrowWF_fresh hval)
  | release eid idx tok =>
    simp only [runAction] at h
    obtain ⟨escrow, milestone, treasury, fee_bps, fee, payout, new_total, hlook, _, hstat,
      _, harr, hrel, _, _, _, hadd, hs, _⟩ := release_ok_inv h
    obtain ⟨hnt, _, _⟩ := checked_add_eq_some hadd
    rw [hs]
    exact stateWF_set hwf
      (escrowWF_payoutUpdate (hwf eid escrow hlook) harr hrel hstat hnt)
  | confirm eid idx buyer =>
    simp only [runAction] at h
    obtain ⟨escrow, milestone, new_total, hlook, _, _, hstat, _, harr, hrel, hadd, _, hs, _⟩ :=
      confirm_ok_inv h
    obtain ⟨hnt, _, _⟩ := checked_add_eq_some hadd
    rw [hs]
    exact stateWF_set hwf
      (escrowWF_payoutUpdate (hwf eid escrow hlook) harr hrel hstat hnt)
  | cancel eid =>
    simp only [runAction] at h
    obtain ⟨escrow, hlook, _, hle, hs, _⟩ := cancel_ok_inv h
    have hwfe := hwf eid escrow hlook
    obtain ⟨h1, h2, h3, h4, h5, h6⟩ := hwfe
    have hge : 0 ≤ escrow.total_released := by
      rw [h3]
      exact releasedSum_nonneg fun m hm => le_of_lt (h2 m hm)
    have hzero : escrow.total_released = 0 := by omega
    rw [hs]
    refine stateWF_set hwf ⟨h1, h2, h3, h4, ?_, ?_⟩
    · intro _
      exact hzero
    · intro hc
      simp [withStatus] at hc
  | complete eid =>
    simp only [runAction] at h
    obtain ⟨escrow, hlook, _, hall, hs, _⟩ := complete_ok_inv h
    have hwfe := hwf eid escrow hlook
    obtain ⟨h1, h2, h3, h4, h5, h6⟩ := hwfe
    rw [hs]
    refine stateWF_set hwf ⟨h1, h2, h3, h4, ?_, ?_⟩
    · intro hc
      simp [withStatus] at hc
    · intro _
      exact (verify_all_released_iff escrow.milestones).mp hall

theorem wf_nextState {s : GlobalState} {c : Call} (hwf : stateWF s) :
    stateWF (nextState s c) := by
  unfold nextState
  split
  next s2 txs heq => exact wf_runAction heq hwf
  next => exact hwf

theorem wf_runTrace {s : GlobalState} (calls : List Call) (hwf : stateWF s) :
    stateWF (runTrace s calls) := by
  induction calls generalizing s with
  | nil => exact hwf
  | cons c rest ih =>
    exact ih (wf_nextState hwf)

theorem wf_initialState : stateWF initialState := by
  intro eid e hlk
  simp [initialState, lookupEscrow] at hlk

theorem wf_reachable (calls : List Call) : stateWF (runTrace initialState calls) :=
  wf_runTrace calls wf_initialState

theorem escrowWF_bounds {e : Escrow} (h : escrowWF e) :
    0 ≤ e.total_released ∧ e.total_released ≤ e.total_amount ∧
      e.total_released = releasedSum e.milestones := by
  obtain ⟨h1, h2, h3, _⟩ := h
  have hb1 := releasedSum_nonneg fun m hm => le_of_lt (h2 m hm)
  have hb2 := releasedSum_le_mSum fun m hm => le_of_lt (h2 m hm)
  refine ⟨by omega, ?_, h3⟩
  rw [h1, h3]
  exact hb2

theorem lt_of_getElem?_some {ms : List Milestone} {i : Nat} {m : Milestone}
    (h : ms[i]? = some m) : i < ms.length := by
  induction ms generalizing i with
  | nil => simp at h
  | cons a rest ih =>
    cases i with
    | zero => simp
    | succ n =>
      simp only [List.getElem?_cons_succ] at h
      have := ih h
      simp only [List.length_cons]
      omega

theorem getElem?_set_self {ms : List Milestone} {i : Nat} {m2 : Milestone}
    (h : i < ms.length) : (ms.set i m2)[i]? = some m2 := by
  induction ms generalizing i with
  | nil => simp at h
  | cons a rest ih =>
    cases i with
    | zero => simp
    | succ n =>
      simp only [List.length_cons] at h
      simp only [List.set, List.getElem?_cons_succ]
      exact ih (by omega)

theorem mSum_pos {ms : List Milestone} (hne : ms ≠ [])
    (hpos : ∀ m ∈ ms, 0 < m.amount) : 0 < mSum ms := by
  cases ms with
  | nil => exact absurd rfl hne
  | cons a rest =>
    have ha := hpos a (by simp)
    have hr := mSum_nonneg fun m hm => le_of_lt (hpos m (List.mem_cons_of_mem _ hm))
    simp only [mSum]
    omega

theorem completed_released_pos {e : Escrow} (hwf : escrowWF e)
    (hne : e.milestones ≠ []) (hc : e.status = EscrowStatus.Completed) :
    0 < e.total_released := by
  obtain ⟨h1, h2, h3, h4, h5, h6⟩ := hwf
  rw [h3, releasedSum_of_all_released (h6 hc)]
  exact mSum_pos hne h2

theorem cancelled_not_all_released {e : Escrow} (hwf : escrowWF e)
    (hne : e.milestones ≠ []) (hc : e.status = EscrowStatus.Cancelled) :
    verify_all_released e.milestones = false := by
  obtain ⟨h1, h2, h3, h4, h5, h6⟩ := hwf
  cases hb : verify_all_released e.milestones
  · rfl
  · exfalso
    have hall := (verify_all_released_iff e.milestones).mp hb
    have hpos := mSum_pos hne h2
    have := h5 hc
    rw [h3, releasedSum_of_all_released hall] at this
    omega

theorem initPlatform_ok_escrows {auth : AuthEnv} {s s2 : GlobalState} {t : Nat}
    {f : Option Int} {txs : List Transfer}
    (h : initPlatform auth s t f = .ok s2 txs) : s2.escrows = s.escrows := by
  unfold initPlatform at h
  split at h
  case isFalse => simp at h
  case isTrue =>
    split at h
    case isFalse => simp at h
    case isTrue =>
      simp only [Outcome.ok.injEq] at h
      rw [← h.1]

theorem update_fee_ok_escrows {auth : AuthEnv} {s s2 : GlobalState} {f : Int}
    {txs : List Transfer}
    (h : update_fee auth s f = .ok s2 txs) : s2.escrows = s.escrows := by
  unfold update_fee at h
  split at h
  · simp at h
  next treasury heq =>
    split at h
    case isFalse => simp at h
    case isTrue =>
      split at h
      case isFalse => simp at h
      case isTrue =>
        simp only [Outcome.ok.injEq] at h
        rw [← h.1]

theorem status_step {s : GlobalState} {c : Call} {eid : Nat} {e e2 : Escrow}
    (hwf : stateWF s)
    (h1 : lookupEscrow s.escrows eid = some e)
    (hne : e.milestones ≠ [])
    (h2 : lookupEscrow (nextState s c).escrows eid = some e2) :
    e2.status = e.status ∨
      (e.status = EscrowStatus.Active ∧
        (e2.status = EscrowStatus.Completed ∨ e2.status = EscrowStatus.Cancelled)) := by
  obtain ⟨auth, tr, act⟩ := c
  unfold nextState at h2
  split at h2
  case h_2 =>
    rw [h1] at h2
    cases h2
    exact Or.inl rfl
  case h_1 s2 txs heq =>
    cases act with
    | setup t f =>
      simp only [runAction] at heq
      rw [initPlatform_ok_escrows heq, h1] at h2
      cases h2
      exact Or.inl rfl
    | updateFee f =>
      simp only [runAction] at heq
      rw [update_fee_ok_escrows heq, h1] at h2
      cases h2
      exact Or.inl rfl
    | create eid2 d r ms tok =>
      simp only [runAction] at heq
      obtain ⟨_, _, hnone, total, _, _, hs, _⟩ := create_ok_inv heq
      by_cases hd : eid = eid2
      · subst hd
        rw [h1] at hnone
        cases hnone
      · simp only [hs] at h2
        rw [lookup_setEscrow_ne _ _ hd, h1] at h2
        cases h2
        exact Or.inl rfl
    | release eid2 idx tok =>
      simp only [runAction] at heq
      obtain ⟨escrow, milestone, treasury, fee_bps, fee, payout, new_total, hlook, _, hstat,
        _, _, _, _, _, _, _, hs, _⟩ := release_ok_inv heq
      by_cases hd : eid = eid2
      · subst hd
        rw [h1] at hlook
        cases hlook
        simp only [hs] at h2
        rw [lookup_setEscrow_self] at h2
        cases h2
        exact Or.inl rfl
      · simp only [hs] at h2
        rw [lookup_setEscrow_ne _ _ hd, h1] at h2
        cases h2
        exact Or.inl rfl
    | confirm eid2 idx buyer =>
      simp only [runAction] at heq
      obtain ⟨escrow, milestone, new_total, hlook, _, _, hstat, _, _, _, _, _, hs, _⟩ :=
        confirm_ok_inv heq
      by_cases hd : eid = eid2
      · subst hd
        rw [h1] at hlook
        cases hlook
        simp only [hs] at h2
        rw [lookup_setEscrow_self] at h2
        cases h2
        exact Or.inl rfl
      · simp only [hs] at h2
        rw [lookup_setEscrow_ne _ _ hd, h1] at h2
        cases h2
        exact Or.inl rfl
    | cancel eid2 =>
      simp only [runAction] at heq
      obtain ⟨escrow, hlook, _, hle, hs, _⟩ := cancel_ok_inv heq
      by_cases hd : eid = eid2
      · subst hd
        rw [h1] at hlook
        cases hlook
        simp only [hs] at h2
        rw [lookup_setEscrow_self] at h2
        cases h2
        rcases hst : e.status with _ | _ | _
        · exact Or.inr ⟨rfl, Or.inr rfl⟩
        · exfalso
          have := completed_released_pos (hwf eid e h1) hne hst
          omega
        · exact Or.inl rfl
      · simp only [hs] at h2
        rw [lookup_setEscrow_ne _ _ hd, h1] at h2
        cases h2
        exact Or.inl rfl
    | complete eid2 =>
      simp only [runAction] at heq
      obtain ⟨escrow, hlook, _, hall, hs, _⟩ := complete_ok_inv heq
      by_cases hd : eid = eid2
      · subst hd
        rw [h1] at hlook
        cases hlook
        simp only [hs] at h2
        rw [lookup_setEscrow_self] at h2
        cases h2
        rcases hst : e.status with _ | _ | _
        · exact Or.inr ⟨rfl, Or.inl rfl⟩
        · exact Or.inl rfl
        · exfalso
          rw [cancelled_not_all_released (hwf eid e h1) hne hst] at hall
          cases hall
      · simp only [hs] at h2
        rw [lookup_setEscrow_ne _ _ hd, h1] at h2
        cases h2
        exact Or.inl rfl

theorem calculate_fee_eq_floor {amount fee_bps : Int} (ha : 0 ≤ amount) (hf : 0 ≤ fee_bps)
    (hub : amount * fee_bps ≤ i128Max) :
    calculate_fee amount fee_bps = .ok (Int.fdiv (amount * fee_bps) BPS_DENOMINATOR) := by
  have hprod : 0 ≤ amount * fee_bps := mul_nonneg ha hf
  have hmin : i128Min ≤ amount * fee_bps := by
    have := i128Min_neg
    omega
  have hmul : checked_mul amount fee_bps = some (amount * fee_bps) := by
    unfold checked_mul
    exact if_pos ⟨hmin, hub⟩
  have hdiv : checked_div (amount * fee_bps) BPS_DENOMINATOR =
      some (Int.tdiv (amount * fee_bps) BPS_DENOMINATOR) := by
    unfold checked_div
    rw [if_neg (by decide : ¬ ((BPS_DENOMINATOR : Int) = 0)), if_neg]
    intro hc
    exact absurd hc.2 (by decide)
  unfold calculate_fee
  simp only [hmul, hdiv]
  rw [Int.fdiv_eq_tdiv hprod (by decide : (0:Int) ≤ BPS_DENOMINATOR)]

theorem calculate_fee_overflow {amount fee_bps : Int}
    (hub : i128Max < amount * fee_bps) :
    calculate_fee amount fee_bps = .error .InvalidMilestoneAmount := by
  have hmul : checked_mul amount fee_bps = none := by
    unfold checked_mul
    rw [if_neg]
    intro hc
    omega
  unfold calculate_fee
  simp only [hmul]

theorem calculate_fee_bounds {amount fee_bps fee : Int} (ha : 0 ≤ amount)
    (hf : 0 ≤ fee_bps) (hfb : fee_bps ≤ BPS_DENOMINATOR)
    (h : calculate_fee amount fee_bps = .ok fee) :
    0 ≤ fee ∧ fee ≤ amount := by
  unfold calculate_fee at h
  split at h
  · simp at h
  next prod hmul =>
    split at h
    · simp at h
    next q hdivq =>
      simp only [Except.ok.injEq] at h
      subst h
      obtain ⟨hpeq, _, _⟩ := checked_mul_eq_some hmul
      subst hpeq
      unfold checked_div at hdivq
      rw [if_neg (by decide : ¬ ((BPS_DENOMINATOR : Int) = 0)), if_neg] at hdivq
      · simp only [Option.some.injEq] at hdivq
        subst hdivq
        have hprod : 0 ≤ amount * fee_bps := mul_nonneg ha hf
        rw [Int.tdiv_eq_ediv hprod (by decide : (0:Int) ≤ BPS_DENOMINATOR)]
        constructor
        · exact Int.ediv_nonneg hprod (by decide)
        · have hle : amount * fee_bps ≤ amount * BPS_DENOMINATOR :=
            mul_le_mul_of_nonneg_left hfb ha
          have h2 := Int.ediv_le_ediv (by decide : (0:Int) < BPS_DENOMINATOR) hle
          rwa [Int.mul_ediv_cancel amount (by decide : (BPS_DENOMINATOR:Int) ≠ 0)] at h2
      · intro hc
        exact absurd hc.2 (by decide)

/-- Host environment that holds an authorization proof for every identity. -/
def allAuth : AuthEnv := fun _ => true

/-- Host environment with no authorization proof at all. -/
def noAuth : AuthEnv := fun _ => false

/-- Token ledger on which every transfer succeeds. -/
def allTr : TransferEnv := fun _ _ _ _ => true

/-- Token ledger on which every transfer fails. -/
def noTr : TransferEnv := fun _ _ _ _ => false

/-- A sample pending milestone worth 100. -/
def demoMilestone : Milestone := ⟨100, MilestoneStatus.Pending, 0⟩

/-- A sample pending milestone worth 10000. -/
def bigMilestone : Milestone := ⟨10000, MilestoneStatus.Pending, 0⟩

/-- Configure the platform: treasury 99, fee 50 bps. -/
def demoSetup : Call := ⟨allAuth, allTr, .setup 99 (some 50)⟩

/-- Create escrow 1: depositor 10, recipient 20, one milestone of 100, token 5. -/
def demoCreate : Call := ⟨allAuth, allTr, .create 1 10 20 [demoMilestone] 5⟩

/-- Create escrow 2 with a single milestone of 10000. -/
def demoCreateBig : Call := ⟨allAuth, allTr, .create 2 10 20 [bigMilestone] 5⟩

/-- Create escrow 2 with no milestones at all. -/
def demoCreateEmpty : Call := ⟨allAuth, allTr, .create 2 10 20 [] 5⟩

/-- Cancel escrow 2. -/
def demoCancelEmpty : Call := ⟨allAuth, allTr, .cancel 2⟩

/-- Complete escrow 2. -/
def demoCompleteEmpty : Call := ⟨allAuth, allTr, .complete 2⟩

/-- Cancel escrow 1. -/
def demoCancel : Call := ⟨allAuth, allTr, .cancel 1⟩

/-- State reached by configuring the platform and creating escrow 1. -/
def demoState : GlobalState := runTrace initialState [demoSetup, demoCreate]

/-- State reached by configuring the platform and creating escrow 2. -/
def demoStateBig : GlobalState := runTrace initialState [demoSetup, demoCreateBig]

/-- State with escrow 1 created but the platform never configured. -/
def demoStateNoCfg : GlobalState := runTrace initialState [demoCreate]

/-- The state carried by an ok outcome, or a default. -/
def outState : Outcome → GlobalState → GlobalState
  | .ok s _, _ => s
  | _, dflt => dflt

/-- C1: starting from the fresh contract state, after every sequence of
public operations each stored escrow record satisfies
0 ≤ total_released ≤ total_amount with total_released equal to the sum of
the amounts of exactly the Released milestones; and each payout path, when
it succeeds on such a state, marks one Pending milestone Released and adds
its full amount (not the after-fee payout) to total_released. -/
theorem C1_escrow_accounting :
    (∀ calls eid e, lookupEscrow (runTrace initialState calls).escrows eid = some e →
      0 ≤ e.total_released ∧ e.total_released ≤ e.total_amount ∧
        e.total_released = releasedSum e.milestones) ∧
    (∀ calls auth tr eid idx tok s2 txs,
      release_milestone auth tr (runTrace initialState calls) eid idx tok = .ok s2 txs →
      ∃ escrow milestone e2,
        lookupEscrow (runTrace initialState calls).escrows eid = some escrow ∧
        escrow.milestones[idx]? = some milestone ∧
        milestone.status = MilestoneStatus.Pending ∧
        lookupEscrow s2.escrows eid = some e2 ∧
        e2.milestones[idx]? = some (markReleased milestone) ∧
        e2.total_released = escrow.total_released + milestone.amount) ∧
    (∀ calls auth tr eid idx buyer s2 txs,
      confirm_delivery auth tr (runTrace initialState calls) eid idx buyer = .ok s2 txs →
      ∃ escrow milestone e2,
        lookupEscrow (runTrace initialState calls).escrows eid = some escrow ∧
        escrow.milestones[idx]? = some milestone ∧
        milestone.status = MilestoneStatus.Pending ∧
        lookupEscrow s2.escrows eid = some e2 ∧
        e2.milestones[idx]? = some (markReleased milestone) ∧
        e2.total_released = escrow.total_released + milestone.amount) := by
  refine ⟨?_, ?_, ?_⟩
  · intro calls eid e h
    exact escrowWF_bounds (wf_reachable calls eid e h)
  · intro calls auth tr eid idx tok s2 txs h
    obtain ⟨escrow, milestone, treasury, fee_bps, fee, payout, new_total, hlook, _, _,
      hlen, harr, hrel, _, _, _, hadd, hs, _⟩ := release_ok_inv h
    obtain ⟨_, h2, _, h4, _, _⟩ := wf_reachable calls eid escrow hlook
    have hmem := mem_of_lookup_idx harr
    have hpend : milestone.status = MilestoneStatus.Pending := by
      rcases hms : milestone.status with _ | _ | _
      · rfl
      · exact absurd hms hrel
      · exact absurd hms (h4 milestone hmem)
    obtain ⟨hnt, _, _⟩ := checked_add_eq_some hadd
    refine ⟨escrow, milestone, payoutUpdate escrow idx milestone new_total,
      hlook, harr, hpend, ?_, ?_, ?_⟩
    · rw [hs]
      exact lookup_setEscrow_self _ _ _
    · exact getElem?_set_self hlen
    · exact hnt
  · intro calls auth tr eid idx buyer s2 txs h
    obtain ⟨escrow, milestone, new_total, hlook, _, _, _, hlen, harr, hrel, hadd, _, hs, _⟩ :=
      confirm_ok_inv h
    obtain ⟨_, h2, _, h4, _, _⟩ := wf_reachable calls eid escrow hlook
    have hmem := mem_of_lookup_idx harr
    have hpend : milestone.status = MilestoneStatus.Pending := by
      rcases hms : milestone.status with _ | _ | _
      · rfl
      · exact absurd hms hrel
      · exact absurd hms (h4 milestone hmem)
    obtain ⟨hnt, _, _⟩ := checked_add_eq_some hadd
    refine ⟨escrow, milestone, payoutUpdate escrow idx milestone new_total,
      hlook, harr, hpend, ?_, ?_, ?_⟩
    · rw [hs]
      exact lookup_setEscrow_self _ _ _
    · exact getElem?_set_self hlen
    · exact hnt

/-- Witness for C1 at a concrete two-call trace and both payout paths. -/
theorem C1_escrow_accounting_witness :
    (0 ≤ (freshEscrow 10 20 [demoMilestone] 5 100).total_released ∧
      (freshEscrow 10 20 [demoMilestone] 5 100).total_released ≤
        (freshEscrow 10 20 [demoMilestone] 5 100).total_amount ∧
      (freshEscrow 10 20 [demoMilestone] 5 100).total_released =
        releasedSum (freshEscrow 10 20 [demoMilestone] 5 100).milestones) ∧
    (∃ escrow milestone e2,
      lookupEscrow demoState.escrows 1 = some escrow ∧
      escrow.milestones[0]? = some milestone ∧
      milestone.status = MilestoneStatus.Pending ∧
      lookupEscrow (outState (release_milestone allAuth allTr demoState 1 0 5)
        initialState).escrows 1 = some e2 ∧
      e2.milestones[0]? = some (markReleased milestone) ∧
      e2.total_released = escrow.total_released + milestone.amount) ∧
    (∃ escrow milestone e2,
      lookupEscrow demoState.escrows 1 = some escrow ∧
      escrow.milestones[0]? = some milestone ∧
      milestone.status = MilestoneStatus.Pending ∧
      lookupEscrow (outState (confirm_delivery allAuth allTr demoState 1 0 10)
        initialState).escrows 1 = some e2 ∧
      e2.milestones[0]? = some (markReleased milestone) ∧
      e2.total_released = escrow.total_released + milestone.amount) := by
  refine ⟨?_, ?_, ?_⟩
  · exact C1_escrow_accounting.1 [demoSetup, demoCreate] 1
      (freshEscrow 10 20 [demoMilestone] 5 100) (by rfl)
  · exact C1_escrow_accounting.2.1 [demoSetup, demoCreate] allAuth allTr 1 0 5
      (outState (release_milestone allAuth allTr demoState 1 0 5) initialState) _ (by rfl)
  · exact C1_escrow_accounting.2.2 [demoSetup, demoCreate] allAuth allTr 1 0 10
      (outState (confirm_delivery allAuth allTr demoState 1 0 10) initialState) _ (by rfl)

/-- C3 (amended): for every escrow with at least one milestone, along any
trace from the fresh contract state a single further call can only keep the
status or move it Active to Completed or Active to Cancelled; in particular
Completed and Cancelled are terminal for such escrows. The restriction to a
nonempty milestone list is forced: see the counterexample. -/
theorem C3_status_machine :
    ∀ calls (c : Call) (eid : Nat) (e e2 : Escrow),
      lookupEscrow (runTrace initialState calls).escrows eid = some e →
      e.milestones ≠ [] →
      lookupEscrow (nextState (runTrace initialState calls) c).escrows eid = some e2 →
      e2.status = e.status ∨
        (e.status = EscrowStatus.Active ∧
          (e2.status = EscrowStatus.Completed ∨ e2.status = EscrowStatus.Cancelled)) :=
  fun calls c eid e e2 h1 hne h2 => status_step (wf_reachable calls) h1 hne h2

/-- Witness for C3: cancelling the freshly created escrow 1. -/
theorem C3_status_machine_witness :
    (withStatus (freshEscrow 10 20 [demoMilestone] 5 100) EscrowStatus.Cancelled).status =
        (freshEscrow 10 20 [demoMilestone] 5 100).status ∨
      ((freshEscrow 10 20 [demoMilestone] 5 100).status = EscrowStatus.Active ∧
        ((withStatus (freshEscrow 10 20 [demoMilestone] 5 100) EscrowStatus.Cancelled).status =
            EscrowStatus.Completed ∨
          (withStatus (freshEscrow 10 20 [demoMilestone] 5 100) EscrowStatus.Cancelled).status =
            EscrowStatus.Cancelled)) :=
  C3_status_machine [demoSetup, demoCreate] demoCancel 1
    (freshEscrow 10 20 [demoMilestone] 5 100)
    (withStatus (freshEscrow 10 20 [demoMilestone] 5 100) EscrowStatus.Cancelled)
    (by rfl) (by decide) (by rfl)

/-- Counterexample to C3 as stated: a zero-milestone escrow can be
cancelled and then completed, so Cancelled is not terminal. -/
theorem C3_counterexample :
    get_state (runTrace initialState [demoCreateEmpty, demoCancelEmpty]) 2 =
      .ok EscrowStatus.Cancelled ∧
    get_state (runTrace initialState [demoCreateEmpty, demoCancelEmpty, demoCompleteEmpty]) 2 =
      .ok EscrowStatus.Completed :=
  ⟨rfl, rfl⟩

/-- C2: for nonnegative amount and fee rate, calculate_fee returns the floor
of amount * fee_bps / 10000, with multiplication overflow surfacing as
InvalidMilestoneAmount; and a successful release_milestone pays the
recipient amount - fee via the supplied token address and performs the
treasury transfer exactly when the fee is positive, while still marking the
milestone Released and persisting the update. -/
theorem C2_fee_and_release :
    (∀ amount fee_bps : Int, 0 ≤ amount → 0 ≤ fee_bps →
      (amount * fee_bps ≤ i128Max →
        calculate_fee amount fee_bps = .ok (Int.fdiv (amount * fee_bps) BPS_DENOMINATOR)) ∧
      (i128Max < amount * fee_bps →
        calculate_fee amount fee_bps = .error .InvalidMilestoneAmount)) ∧
    (∀ auth tr s eid idx tok escrow milestone treasury fee_bps fee new_total,
      lookupEscrow s.escrows eid = some escrow →
      auth escrow.depositor = true →
      escrow.status = EscrowStatus.Active →
      idx < escrow.milestones.length →
      escrow.milestones[idx]? = some milestone →
      milestone.status ≠ MilestoneStatus.Released →
      get_config s = .ok (treasury, fee_bps) →
      calculate_fee milestone.amount fee_bps = .ok fee →
      checked_sub milestone.amount fee = some (milestone.amount - fee) →
      checked_add escrow.total_released milestone.amount = some new_total →
      tr tok currentContract escrow.recipient (milestone.amount - fee) = true →
      (0 < fee → tr tok currentContract treasury fee = true) →
      release_milestone auth tr s eid idx tok =
        .ok { s with escrows := setEscrow s.escrows eid (payoutUpdate escrow idx milestone new_total) }
          (⟨tok, currentContract, escrow.recipient, milestone.amount - fee⟩ ::
            (if 0 < fee then [⟨tok, currentContract, treasury, fee⟩] else []))) := by
  constructor
  · intro amount fee_bps ha hf
    exact ⟨fun hub => calculate_fee_eq_floor ha hf hub,
      fun hub => calculate_fee_overflow hub⟩
  · intro auth tr s eid idx tok escrow milestone treasury fee_bps fee new_total
      hlook hauth hstat hlen harr hrel hcfg hfee hsub hadd htr1 htr2
    exact release_ok_of hlook hauth hstat hlen harr hrel hcfg hfee hsub hadd htr1 htr2

/-- Witness for C2: fee 50 on amount 10000 at 50 bps, and a zero-fee release
of the 100-unit milestone of escrow 1 (no treasury transfer emitted), plus a
positive-fee release of the 10000-unit milestone of escrow 2. -/
theorem C2_fee_and_release_witness :
    calculate_fee 10000 50 = .ok (Int.fdiv (10000 * 50) BPS_DENOMINATOR) ∧
    release_milestone allAuth allTr demoState 1 0 5 =
      .ok { demoState with escrows := setEscrow demoState.escrows 1 (payoutUpdate (freshEscrow 10 20 [demoMilestone] 5 100) 0 demoMilestone 100) }
        (⟨5, currentContract, 20, 100 - 0⟩ ::
          (if (0:Int) < 0 then [⟨5, currentContract, 99, 0⟩] else [])) ∧
    release_milestone allAuth allTr demoStateBig 2 0 5 =
      .ok { demoStateBig with escrows := setEscrow demoStateBig.escrows 2 (payoutUpdate (freshEscrow 10 20 [bigMilestone] 5 10000) 0 bigMilestone 10000) }
        (⟨5, currentContract, 20, 10000 - 50⟩ ::
          (if (0:Int) < 50 then [⟨5, currentContract, 99, 50⟩] else [])) := by
  refine ⟨?_, ?_, ?_⟩
  · exact (C2_fee_and_release.1 10000 50 (by decide) (by decide)).1 (by decide)
  · exact C2_fee_and_release.2 allAuth allTr demoState 1 0 5
      (freshEscrow 10 20 [demoMilestone] 5 100) demoMilestone 99 50 0 100
      (by rfl) (by rfl) (by rfl) (by decide) (by rfl) (by decide) (by rfl) (by rfl)
      (by rfl) (by rfl) (by rfl) (by decide)
  · exact C2_fee_and_release.2 allAuth allTr demoStateBig 2 0 5
      (freshEscrow 10 20 [bigMilestone] 5 10000) bigMilestone 99 50 50 10000
      (by rfl) (by rfl) (by rfl) (by decide) (by rfl) (by decide) (by rfl) (by rfl)
      (by rfl) (by rfl) (by rfl) (fun _ => by rfl)

/-- C4: confirm_delivery rejects with UnauthorizedAccess any authorized
buyer other than the stored depositor, and on success it transfers the full
milestone amount to the recipient via the escrow's own stored token with no
fee and no use of the platform configuration (the state's treasury and fee
keys are arbitrary, so it succeeds even when no configuration exists),
marking the milestone Released and adding its full amount to
total_released exactly as release_milestone does. -/
theorem C4_confirm_delivery :
    (∀ auth tr s eid idx buyer escrow,
      lookupEscrow s.escrows eid = some escrow →
      auth buyer = true →
      escrow.depositor ≠ buyer →
      confirm_delivery auth tr s eid idx buyer = .err .UnauthorizedAccess) ∧
    (∀ auth tr s eid idx buyer escrow milestone new_total,
      lookupEscrow s.escrows eid = some escrow →
      auth buyer = true →
      escrow.depositor = buyer →
      escrow.status = EscrowStatus.Active →
      idx < escrow.milestones.length →
      escrow.milestones[idx]? = some milestone →
      milestone.status ≠ MilestoneStatus.Released →
      checked_add escrow.total_released milestone.amount = some new_total →
      tr escrow.token currentContract escrow.recipient milestone.amount = true →
      confirm_delivery auth tr s eid idx buyer =
        .ok { s with escrows := setEscrow s.escrows eid (payoutUpdate escrow idx milestone new_total) }
          [⟨escrow.token, currentContract, escrow.recipient, milestone.amount⟩]) := by
  constructor
  · intro auth tr s eid idx buyer escrow hlook hauth hne
    unfold confirm_delivery
    simp [hlook, hauth, hne]
  · intro auth tr s eid idx buyer escrow milestone new_total
      hlook hauth hbuyer hstat hlen harr hrel hadd htr
    exact confirm_ok_of hlook hauth hbuyer hstat hlen harr hrel hadd htr

/-- Witness for C4: buyer 30 is rejected on escrow 1, while the depositor
(buyer 10) confirms on a state where the platform was never configured. -/
theorem C4_confirm_delivery_witness :
    confirm_delivery allAuth allTr demoState 1 0 30 = .err .UnauthorizedAccess ∧
    demoStateNoCfg.treasury = none ∧
    confirm_delivery allAuth allTr demoStateNoCfg 1 0 10 =
      .ok { demoStateNoCfg with escrows := setEscrow demoStateNoCfg.escrows 1 (payoutUpdate (freshEscrow 10 20 [demoMilestone] 5 100) 0 demoMilestone 100) }
        [⟨(freshEscrow 10 20 [demoMilestone] 5 100).token, currentContract,
          (freshEscrow 10 20 [demoMilestone] 5 100).recipient, demoMilestone.amount⟩] := by
  refine ⟨?_, rfl, ?_⟩
  · exact C4_confirm_delivery.1 allAuth allTr demoState 1 0 30
      (freshEscrow 10 20 [demoMilestone] 5 100) (by rfl) (by rfl) (by decide)
  · exact C4_confirm_delivery.2 allAuth allTr demoStateNoCfg 1 0 10
      (freshEscrow 10 20 [demoMilestone] 5 100) demoMilestone 100
      (by rfl) (by rfl) (by decide) (by rfl) (by decide) (by rfl) (by decide)
      (by rfl) (by rfl)

/-- C5 (amended): the constructor and create_escrow run the caller
authorization check before any other fallible validation; but
release_milestone, confirm_delivery, cancel_escrow and complete_escrow load
the escrow first — returning EscrowNotFound when it is absent, before any
authorization check — and only then authorization for the stored
identity aborts the call ahead of all remaining validation. -/
theorem C5_auth_ordering :
    (∀ auth s t f, auth t = false → initPlatform auth s t f = .authAbort) ∧
    (∀ auth tr s eid d r ms tok, auth d = false →
      create_escrow auth tr s eid d r ms tok = .authAbort) ∧
    (∀ auth tr s eid idx tok, lookupEscrow s.escrows eid = none →
      release_milestone auth tr s eid idx tok = .err .EscrowNotFound) ∧
    (∀ auth tr s eid idx tok escrow, lookupEscrow s.escrows eid = some escrow →
      auth escrow.depositor = false →
      release_milestone auth tr s eid idx tok = .authAbort) ∧
    (∀ auth tr s eid idx buyer, lookupEscrow s.escrows eid = none →
      confirm_delivery auth tr s eid idx buyer = .err .EscrowNotFound) ∧
    (∀ auth tr s eid idx buyer escrow, lookupEscrow s.escrows eid = some escrow →
      auth buyer = false →
      confirm_delivery auth tr s eid idx buyer = .authAbort) ∧
    (∀ auth s eid, lookupEscrow s.escrows eid = none →
      cancel_escrow auth s eid = .err .EscrowNotFound) ∧
    (∀ auth s eid escrow, lookupEscrow s.escrows eid = some escrow →
      auth escrow.depositor = false →
      cancel_escrow auth s eid = .authAbort) ∧
    (∀ auth s eid, lookupEscrow s.escrows eid = none →
      complete_escrow auth s eid = .err .EscrowNotFound) ∧
    (∀ auth s eid escrow, lookupEscrow s.escrows eid = some escrow →
      auth escrow.depositor = false →
      complete_escrow auth s eid = .authAbort) := by
  refine ⟨?_, ?_, ?_, ?_, ?_, ?_, ?_, ?_, ?_, ?_⟩
  · intro auth s t f h
    unfold initPlatform
    simp [h]
  · intro auth tr s eid d r ms tok h
    unfold create_escrow
    simp [h]
  · intro auth tr s eid idx tok h
    unfold release_milestone
    simp [h]
  · intro auth tr s eid idx tok escrow hlook h
    unfold release_milestone
    simp [hlook, h]
  · intro auth tr s eid idx buyer h
    unfold confirm_delivery
    simp [h]
  · intro auth tr s eid idx buyer escrow hlook h
    unfold confirm_delivery
    simp [hlook, h]
  · intro auth s eid h
    unfold cancel_escrow
    simp [h]
  · intro auth s eid escrow hlook h
    unfold cancel_escrow
    simp [hlook, h]
  · intro auth s eid h
    unfold complete_escrow
    simp [h]
  · intro auth s eid escrow hlook h
    unfold complete_escrow
    simp [hlook, h]

/-- Witness for C5: concrete aborts and not-found results. -/
theorem C5_auth_ordering_witness :
    initPlatform noAuth initialState 99 (some 50) = .authAbort ∧
    create_escrow noAuth allTr initialState 1 10 20 [demoMilestone] 5 = .authAbort ∧
    release_milestone noAuth allTr demoState 1 0 5 = .authAbort ∧
    confirm_delivery noAuth allTr demoState 1 0 10 = .authAbort ∧
    cancel_escrow noAuth demoState 1 = .authAbort ∧
    complete_escrow noAuth demoState 1 = .authAbort := by
  refine ⟨?_, ?_, ?_, ?_, ?_, ?_⟩
  · exact C5_auth_ordering.1 noAuth initialState 99 (some 50) (by rfl)
  · exact C5_auth_ordering.2.1 noAuth allTr initialState 1 10 20 [demoMilestone] 5 (by rfl)
  · exact C5_auth_ordering.2.2.2.1 noAuth allTr demoState 1 0 5
      (freshEscrow 10 20 [demoMilestone] 5 100) (by rfl) (by rfl)
  · exact C5_auth_ordering.2.2.2.2.2.1 noAuth allTr demoState 1 0 10
      (freshEscrow 10 20 [demoMilestone] 5 100) (by rfl) (by rfl)
  · exact C5_auth_ordering.2.2.2.2.2.2.2.1 noAuth demoState 1
      (freshEscrow 10 20 [demoMilestone] 5 100) (by rfl) (by rfl)
  · exact C5_auth_ordering.2.2.2.2.2.2.2.2.2 noAuth demoState 1
      (freshEscrow 10 20 [demoMilestone] 5 100) (by rfl) (by rfl)

/-- Counterexample to C5 as stated: with no authorization proof at all, the
four escrow operations return the ordinary error EscrowNotFound instead of
aborting, because they load the escrow before any authorization check. -/
theorem C5_counterexample :
    release_milestone noAuth allTr initialState 0 0 0 = .err .EscrowNotFound ∧
    confirm_delivery noAuth allTr initialState 0 0 0 = .err .EscrowNotFound ∧
    cancel_escrow noAuth initialState 0 = .err .EscrowNotFound ∧
    complete_escrow noAuth initialState 0 = .err .EscrowNotFound :=
  ⟨rfl, rfl, rfl, rfl⟩

/-- A state holding only a cancelled copy of escrow 1, no configuration. -/
def cancelledState : GlobalState :=
  ⟨none, none, [(1, withStatus (freshEscrow 10 20 [demoMilestone] 5 100) EscrowStatus.Cancelled)]⟩

/-- A state holding only escrow 1 with its single milestone released. -/
def releasedState : GlobalState :=
  ⟨none, none, [(1, payoutUpdate (freshEscrow 10 20 [demoMilestone] 5 100) 0 demoMilestone 100)]⟩

/-- C6: release_milestone checks its failure conditions in the fixed order
EscrowNotFound, EscrowNotActive, MilestoneNotFound, MilestoneAlreadyReleased
and only then loads the configuration, failing TreasuryNotInitialized when
it is absent; each conjunct fixes the earlier checks to pass and leaves all
later conditions unconstrained, so when several conditions hold the
earliest in this order wins. -/
theorem C6_release_error_order :
    ∀ auth tr s eid idx tok,
      (lookupEscrow s.escrows eid = none →
        release_milestone auth tr s eid idx tok = .err .EscrowNotFound) ∧
      (∀ escrow, lookupEscrow s.escrows eid = some escrow → auth escrow.depositor = true →
        (escrow.status ≠ EscrowStatus.Active →
          release_milestone auth tr s eid idx tok = .err .EscrowNotActive) ∧
        (escrow.status = EscrowStatus.Active → escrow.milestones.length ≤ idx →
          release_milestone auth tr s eid idx tok = .err .MilestoneNotFound) ∧
        (∀ milestone, escrow.status = EscrowStatus.Active →
          escrow.milestones[idx]? = some milestone →
          milestone.status = MilestoneStatus.Released →
          release_milestone auth tr s eid idx tok = .err .MilestoneAlreadyReleased) ∧
        (∀ milestone, escrow.status = EscrowStatus.Active →
          escrow.milestones[idx]? = some milestone →
          milestone.status ≠ MilestoneStatus.Released →
          s.treasury = none →
          release_milestone auth tr s eid idx tok = .err .TreasuryNotInitialized)) := by
  intro auth tr s eid idx tok
  constructor
  · intro h
    unfold release_milestone
    simp [h]
  · intro escrow hlook hauth
    refine ⟨?_, ?_, ?_, ?_⟩
    · intro hstat
      unfold release_milestone
      simp [hlook, hauth, hstat]
    · intro hstat hlen
      unfold release_milestone
      simp [hlook, hauth, hstat, hlen]
    · intro milestone hstat harr hms
      have hlen2 : ¬ (escrow.milestones.length ≤ idx) := by
        have := lt_of_getElem?_some harr
        omega
      unfold release_milestone
      simp [hlook, hauth, hstat, hlen2, harr, hms]
    · intro milestone hstat harr hrel htre
      have hlen2 : ¬ (escrow.milestones.length ≤ idx) := by
        have := lt_of_getElem?_some harr
        omega
      unfold release_milestone
      simp [hlook, hauth, hstat, hlen2, harr, hrel, get_config, htre]

/-- Witness for C6: every error of the chain observed on concrete states. -/
theorem C6_release_error_order_witness :
    release_milestone allAuth allTr initialState 1 0 5 = .err .EscrowNotFound ∧
    release_milestone allAuth allTr cancelledState 1 0 5 = .err .EscrowNotActive ∧
    release_milestone allAuth allTr demoStateNoCfg 1 7 5 = .err .MilestoneNotFound ∧
    release_milestone allAuth allTr releasedState 1 0 5 = .err .MilestoneAlreadyReleased ∧
    release_milestone allAuth allTr demoStateNoCfg 1 0 5 = .err .TreasuryNotInitialized := by
  refine ⟨?_, ?_, ?_, ?_, ?_⟩
  · exact (C6_release_error_order allAuth allTr initialState 1 0 5).1 (by rfl)
  · exact ((C6_release_error_order allAuth allTr cancelledState 1 0 5).2
      (withStatus (freshEscrow 10 20 [demoMilestone] 5 100) EscrowStatus.Cancelled)
      (by rfl) (by rfl)).1 (by decide)
  · exact (((C6_release_error_order allAuth allTr demoStateNoCfg 1 7 5).2
      (freshEscrow 10 20 [demoMilestone] 5 100) (by rfl) (by rfl)).2.1 (by rfl) (by decide))
  · exact (((C6_release_error_order allAuth allTr releasedState 1 0 5).2
      (payoutUpdate (freshEscrow 10 20 [demoMilestone] 5 100) 0 demoMilestone 100)
      (by rfl) (by rfl)).2.2.1 (markReleased demoMilestone) (by rfl) (by rfl) (by rfl))
  · exact (((C6_release_error_order allAuth allTr demoStateNoCfg 1 0 5).2
      (freshEscrow 10 20 [demoMilestone] 5 100) (by rfl) (by rfl)).2.2.2 demoMilestone
      (by rfl) (by rfl) (by decide) (by rfl))

/-- C7 (amended): for every milestone vector of length at most 20 whose
amounts are all positive and whose total fits in i128, given a fresh
escrow_id, distinct authorized depositor and recipient, and a successful
funding transfer, create_escrow succeeds and persists a record with
total_amount equal to the sum of the amounts, total_released 0, status
Active, and every stored milestone reset to Pending. -/
theorem C7_create_escrow :
    ∀ auth tr s eid d r ms tok,
      auth d = true → d ≠ r → lookupEscrow s.escrows eid = none →
      (∀ m ∈ ms, 0 < m.amount) → ms.length ≤ 20 → mSum ms ≤ i128Max →
      tr tok d currentContract (mSum ms) = true →
      create_escrow auth tr s eid d r ms tok =
        .ok { s with escrows := setEscrow s.escrows eid (freshEscrow d r ms tok (mSum ms)) } [⟨tok, d, currentContract, mSum ms⟩] ∧
      lookupEscrow (setEscrow s.escrows eid (freshEscrow d r ms tok (mSum ms))) eid =
        some (freshEscrow d r ms tok (mSum ms)) ∧
      (freshEscrow d r ms tok (mSum ms)).total_amount = mSum ms ∧
      (freshEscrow d r ms tok (mSum ms)).total_released = 0 ∧
      (freshEscrow d r ms tok (mSum ms)).status = EscrowStatus.Active ∧
      ∀ m ∈ (freshEscrow d r ms tok (mSum ms)).milestones,
        m.status = MilestoneStatus.Pending := by
  intro auth tr s eid d r ms tok hauth hdr hex hpos hlen hub htr
  have hval := validate_milestones_of_bounds hpos hlen hub
  refine ⟨create_ok_of hauth hdr hex hval htr, lookup_setEscrow_self _ _ _, rfl, rfl, rfl, ?_⟩
  intro m hm
  obtain ⟨a, _, ha⟩ := List.mem_map.mp hm
  rw [← ha]

/-- Witness for C7: creating escrow 1 in the fresh state. -/
theorem C7_create_escrow_witness :
    create_escrow allAuth allTr initialState 1 10 20 [demoMilestone] 5 =
      .ok { initialState with escrows := setEscrow initialState.escrows 1 (freshEscrow 10 20 [demoMilestone] 5 (mSum [demoMilestone])) } [⟨5, 10, currentContract, mSum [demoMilestone]⟩] ∧
    lookupEscrow (setEscrow initialState.escrows 1
        (freshEscrow 10 20 [demoMilestone] 5 (mSum [demoMilestone]))) 1 =
      some (freshEscrow 10 20 [demoMilestone] 5 (mSum [demoMilestone])) ∧
    (freshEscrow 10 20 [demoMilestone] 5 (mSum [demoMilestone])).total_amount =
      mSum [demoMilestone] ∧
    (freshEscrow 10 20 [demoMilestone] 5 (mSum [demoMilestone])).total_released = 0 ∧
    (freshEscrow 10 20 [demoMilestone] 5 (mSum [demoMilestone])).status =
      EscrowStatus.Active ∧
    ∀ m ∈ (freshEscrow 10 20 [demoMilestone] 5 (mSum [demoMilestone])).milestones,
      m.status = MilestoneStatus.Pending :=
  C7_create_escrow allAuth allTr initialState 1 10 20 [demoMilestone] 5
    (by rfl) (by decide) (by rfl) (by decide) (by decide) (by decide) (by rfl)

/-- Milestones whose individually positive amounts sum beyond i128. -/
def overflowMilestones : List Milestone :=
  [⟨i128Max, MilestoneStatus.Pending, 0⟩, ⟨1, MilestoneStatus.Pending, 0⟩]

/-- Counterexample to C7 as stated: two positive milestones (N = 2 ≤ 20),
fresh id, distinct authorized parties — yet create_escrow fails because the
checked sum of the amounts overflows i128. -/
theorem C7_counterexample :
    (∀ m ∈ overflowMilestones, 0 < m.amount) ∧
    overflowMilestones.length ≤ 20 ∧
    allAuth 10 = true ∧
    (10 : Nat) ≠ 20 ∧
    lookupEscrow initialState.escrows 1 = none ∧
    create_escrow allAuth allTr initialState 1 10 20 overflowMilestones 5 =
      .err .InvalidMilestoneAmount :=
  ⟨by decide, by decide, rfl, by decide, rfl, rfl⟩

/-- C8: when the funding transfer fails, create_escrow aborts as a whole:
no record is persisted, the state is exactly what it was before the call,
and get_escrow on the identifier still reports EscrowNotFound. -/
theorem C8_transfer_failure_aborts :
    ∀ auth tr s eid d r ms tok total,
      auth d = true → d ≠ r → lookupEscrow s.escrows eid = none →
      validate_milestones ms = .ok total →
      tr tok d currentContract total = false →
      create_escrow auth tr s eid d r ms tok = .transferAbort ∧
      nextState s ⟨auth, tr, .create eid d r ms tok⟩ = s ∧
      get_escrow (nextState s ⟨auth, tr, .create eid d r ms tok⟩) eid =
        .error .EscrowNotFound := by
  intro auth tr s eid d r ms tok total hauth hdr hex hval htr
  have h1 : create_escrow auth tr s eid d r ms tok = .transferAbort := by
    unfold create_escrow
    simp [hauth, hdr, hex, hval, htr]
  have h2 : nextState s ⟨auth, tr, Action.create eid d r ms tok⟩ = s := by
    simp [nextState, runAction, h1]
  refine ⟨h1, h2, ?_⟩
  rw [h2]
  unfold get_escrow
  simp [hex]

/-- Witness for C8: the funding transfer of escrow 1 fails. -/
theorem C8_transfer_failure_aborts_witness :
    create_escrow allAuth noTr initialState 1 10 20 [demoMilestone] 5 = .transferAbort ∧
    nextState initialState ⟨allAuth, noTr, .create 1 10 20 [demoMilestone] 5⟩ = initialState ∧
    get_escrow (nextState initialState ⟨allAuth, noTr, .create 1 10 20 [demoMilestone] 5⟩) 1 =
      .error .EscrowNotFound :=
  C8_transfer_failure_aborts allAuth noTr initialState 1 10 20 [demoMilestone] 5 100
    (by rfl) (by decide) (by rfl) (by rfl) (by rfl)

/-- C9: create_escrow accepts the empty milestone vector, persisting an
Active escrow with zero totals and no milestones; the all-released check is
vacuously true on it, so complete_escrow succeeds immediately without any
release having happened. -/
theorem C9_empty_milestones :
    ∀ auth tr s eid d r tok,
      auth d = true → d ≠ r → lookupEscrow s.escrows eid = none →
      tr tok d currentContract 0 = true →
      create_escrow auth tr s eid d r [] tok =
        .ok { s with escrows := setEscrow s.escrows eid (freshEscrow d r [] tok 0) } [⟨tok, d, currentContract, 0⟩] ∧
      (freshEscrow d r [] tok 0).total_amount = 0 ∧
      (freshEscrow d r [] tok 0).total_released = 0 ∧
      (freshEscrow d r [] tok 0).milestones = [] ∧
      (freshEscrow d r [] tok 0).status = EscrowStatus.Active ∧
      verify_all_released (freshEscrow d r [] tok 0).milestones = true ∧
      complete_escrow auth { s with escrows := setEscrow s.escrows eid (freshEscrow d r [] tok 0) } eid =
        .ok { s with escrows := setEscrow (setEscrow s.escrows eid (freshEscrow d r [] tok 0)) eid (withStatus (freshEscrow d r [] tok 0) EscrowStatus.Completed) } [] := by
  intro auth tr s eid d r tok hauth hdr hex htr
  have hval : validate_milestones ([] : List Milestone) = .ok 0 := rfl
  refine ⟨create_ok_of hauth hdr hex hval htr, rfl, rfl, rfl, rfl, rfl, ?_⟩
  exact complete_ok_of (lookup_setEscrow_self _ _ _) hauth rfl

/-- Witness for C9: escrow 7 created empty and completed at once. -/
theorem C9_empty_milestones_witness :
    create_escrow allAuth allTr initialState 7 10 20 [] 5 =
      .ok { initialState with escrows := setEscrow initialState.escrows 7 (freshEscrow 10 20 [] 5 0) } [⟨5, 10, currentContract, 0⟩] ∧
    (freshEscrow 10 20 [] 5 0).total_amount = 0 ∧
    (freshEscrow 10 20 [] 5 0).total_released = 0 ∧
    (freshEscrow 10 20 [] 5 0).milestones = [] ∧
    (freshEscrow 10 20 [] 5 0).status = EscrowStatus.Active ∧
    verify_all_released (freshEscrow 10 20 [] 5 0).milestones = true ∧
    complete_escrow allAuth { initialState with escrows := setEscrow initialState.escrows 7 (freshEscrow 10 20 [] 5 0) } 7 =
      .ok { initialState with escrows := setEscrow (setEscrow initialState.escrows 7 (freshEscrow 10 20 [] 5 0)) 7 (withStatus (freshEscrow 10 20 [] 5 0) EscrowStatus.Completed) } [] :=
  C9_empty_milestones allAuth allTr initialState 7 10 20 5
    (by rfl) (by decide) (by rfl) (by rfl)

/-- C10 (amended): whenever amount lies in [0, i128Max], fee_bps in
[0, 10000], and the product amount * fee_bps fits in i128, calculate_fee
returns a fee with 0 ≤ fee ≤ amount, so the checked subtraction
payout = amount - fee in release_milestone cannot fail and the payout is
never negative. The product-fits hypothesis is forced: see the
counterexample. -/
theorem C10_fee_bounds :
    ∀ amount fee_bps : Int,
      0 ≤ amount → amount ≤ i128Max → 0 ≤ fee_bps → fee_bps ≤ BPS_DENOMINATOR →
      amount * fee_bps ≤ i128Max →
      ∃ fee, calculate_fee amount fee_bps = .ok fee ∧ 0 ≤ fee ∧ fee ≤ amount ∧
        checked_sub amount fee = some (amount - fee) ∧ 0 ≤ amount - fee := by
  intro amount fee_bps ha hamax hf hfb hub
  have hok := calculate_fee_eq_floor ha hf hub
  obtain ⟨hb1, hb2⟩ := calculate_fee_bounds ha hf hfb hok
  have hmin := i128Min_neg
  exact ⟨_, hok, hb1, hb2, checked_sub_of_range (by omega) (by omega), by omega⟩

/-- Witness for C10: amount 10000 at 50 bps. -/
theorem C10_fee_bounds_witness :
    ∃ fee, calculate_fee 10000 50 = .ok fee ∧ 0 ≤ fee ∧ fee ≤ 10000 ∧
      checked_sub 10000 fee = some (10000 - fee) ∧ 0 ≤ 10000 - fee :=
  C10_fee_bounds 10000 50 (by decide) (by decide) (by decide) (by decide) (by decide)

/-- Counterexample to C10 as stated: at amount i128Max and fee_bps 2 (well
inside [0, 10000]) the checked multiplication overflows, so calculate_fee
returns InvalidMilestoneAmount instead of a fee. -/
theorem C10_counterexample :
    0 ≤ i128Max ∧ (0 : Int) ≤ 2 ∧ (2 : Int) ≤ BPS_DENOMINATOR ∧
    calculate_fee i128Max 2 = .error .InvalidMilestoneAmount :=
  ⟨by decide, by decide, by decide, rfl⟩

end Vaultix
